import Mathlib

/-! # self-taught-dev-bot: command dispatch and role assignment

A shallow embedding of `main.go`.  A handler invocation is a function from what
the invocation observes (the Discord API responses, the order in which the Go
runtime enumerates `roleMapping`) to the ordered list of calls it makes on the
session (`Event`).  Go strings are Lean strings (sequences of runes); the
standard-library string functions used by `main.go` are defined on the rune
lists by structural recursion.
-/

namespace SelfTaughtDevBot

/-! ## Go standard library: `unicode` and `strings` -/

/-- Go `unicode.IsSpace`: the runes with the Unicode White_Space property. -/
def IsSpace (c : Char) : Bool :=
  let n := c.toNat
  (9 ≤ n && n ≤ 13) || n == 32 || n == 133 || n == 160 || n == 5760 ||
  (8192 ≤ n && n ≤ 8202) || n == 8232 || n == 8233 || n == 8239 || n == 8287 ||
  n == 12288

/-- Case tables of Go package `unicode`, which `main.go` reaches through
`strings.ToLower`, `strings.Title` and `strings.EqualFold`.  The tables are
data of the Go distribution, so they are a parameter of the embedding; the three
laws are the facts about them that the development relies on: on ASCII they are
the ASCII case maps, and white space has no case. -/
structure Unicode where
  /-- Go `unicode.ToLower`. -/
  ToLower : Char → Char
  /-- Go `unicode.ToTitle`. -/
  ToTitle : Char → Char
  /-- Go `unicode.IsLetter`. -/
  IsLetter : Char → Bool
  /-- Go `unicode.IsDigit`. -/
  IsDigit : Char → Bool
  /-- Two runes lie on the same `unicode.SimpleFold` orbit. -/
  SimpleFoldEq : Char → Char → Bool
  ToLower_ascii : ∀ c : Char, c.toNat < 128 → ToLower c = c.toLower
  ToTitle_ascii : ∀ c : Char, c.toNat < 128 → ToTitle c = c.toUpper
  ToLower_space : ∀ c : Char, IsSpace c = true → ToLower c = c

/-- Go `strings.HasPrefix`. -/
def HasPrefix (s pre : String) : Bool := pre.data.isPrefixOf s.data

/-- Scan for `strings.Contains`: does `sub` start at some position of the list. -/
def containsAux (sub : List Char) : List Char → Bool
  | [] => sub.isEmpty
  | c :: cs => sub.isPrefixOf (c :: cs) || containsAux sub cs

/-- Go `strings.Contains`. -/
def Contains (s substr : String) : Bool := containsAux substr.data s.data

/-- Go `strings.Join`. -/
def Join : List String → String → String
  | [], _ => ""
  | [e], _ => e
  | e :: e2 :: es, sep => e ++ sep ++ Join (e2 :: es) sep

/-- Go `strings.ToLower`: every rune mapped through `unicode.ToLower`. -/
def ToLower (U : Unicode) (s : String) : String := String.mk (s.data.map U.ToLower)

/-- Scan for `strings.Fields`; `cur` is the field being read, last rune first. -/
def fieldsAux : List Char → List Char → List String
  | [], cur => if cur.isEmpty then [] else [String.mk cur.reverse]
  | c :: cs, cur =>
    if IsSpace c then
      (if cur.isEmpty then fieldsAux cs [] else String.mk cur.reverse :: fieldsAux cs [])
    else fieldsAux cs (c :: cur)

/-- Go `strings.Fields`: the maximal runs of non-space runes, in order. -/
def Fields (s : String) : List String := fieldsAux s.data []

/-- Go `strings.isSeparator`, used by `strings.Title` to find word starts. -/
def isSeparator (U : Unicode) (r : Char) : Bool :=
  if r.toNat ≤ 127 then
    !(r.isDigit || r.isLower || r.isUpper || r == '_')
  else if U.IsLetter r || U.IsDigit r then false
  else IsSpace r

/-- Scan for `strings.Title`; `prev` is the previous rune. -/
def titleAux (U : Unicode) : Char → List Char → List Char
  | _, [] => []
  | prev, r :: rs => (if isSeparator U prev then U.ToTitle r else r) :: titleAux U r rs

/-- Go `strings.Title`: the first rune of every word mapped to title case. -/
def Title (U : Unicode) (s : String) : String := String.mk (titleAux U ' ' s.data)

/-- Rune-by-rune comparison for `strings.EqualFold`. -/
def equalFoldAux (U : Unicode) : List Char → List Char → Bool
  | [], [] => true
  | a :: as, b :: bs => (a == b || U.SimpleFoldEq a b) && equalFoldAux U as bs
  | _, _ => false

/-- Go `strings.EqualFold`: equality under Unicode simple case folding. -/
def EqualFold (U : Unicode) (s t : String) : Bool := equalFoldAux U s.data t.data

/-- The ASCII case tables: runes outside ASCII have no case.  They agree with
Go on ASCII text and are the tables of the concrete evaluations below. -/
def asciiTables : Unicode where
  ToLower := Char.toLower
  ToTitle := Char.toUpper
  IsLetter := fun _ => false
  IsDigit := fun _ => false
  SimpleFoldEq := fun a b => a.toLower == b.toLower
  ToLower_ascii := fun _ _ => rfl
  ToTitle_ascii := fun _ _ => rfl
  ToLower_space := by
    intro c h
    have h1 : ¬ (c.toNat ≥ 65 ∧ c.toNat ≤ 90) := by
      simp only [IsSpace, Bool.or_eq_true, Bool.and_eq_true, decide_eq_true_eq,
        beq_iff_eq] at h
      omega
    simp only [Char.toLower]
    rw [if_neg h1]

/-! ## Data model -/

/-- The fields of `discordgo.Role` that `main.go` reads. -/
structure Role where
  ID : String
  Name : String
deriving DecidableEq, Repr

/-- The fields of `discordgo.Guild` that `main.go` reads. -/
structure Guild where
  Roles : List Role
deriving DecidableEq, Repr

/-- The fields of `discordgo.Member` that `main.go` reads. -/
structure Member where
  Roles : List String
deriving DecidableEq, Repr

/-- The fields of `discordgo.MessageCreate` that `main.go` reads
(`AuthorID` is `m.Author.ID`). -/
structure MessageCreate where
  AuthorID : String
  ChannelID : String
  GuildID : String
  Content : String
deriving DecidableEq, Repr

/-- The package-level variables set once in `main`. -/
structure Config where
  botID : String
  setRoleChannelID : String
deriving DecidableEq, Repr

/-- What a `*discordgo.Session` answers during one handler invocation.  An
error is represented by its `Error()` text; `none` from a mutation call is a
`nil` error. -/
structure Session where
  Guild : String → Except String Guild
  GuildMember : String → String → Except String Member
  GuildMemberRoleAdd : String → String → String → Option String
  GuildMemberRoleRemove : String → String → String → Option String

/-- One effect of a handler, in the order the handler performs them. -/
inductive Event where
  | Guild (guildID : String)
  | GuildMember (guildID userID : String)
  | GuildMemberRoleAdd (guildID userID roleID : String)
  | GuildMemberRoleRemove (guildID userID roleID : String)
  | ChannelMessageSend (channelID content : String)
  | Log (text : String)
deriving DecidableEq, Repr

/-- The `roleMapping` table: short names to full role names. -/
def roleMapping : List (String × String) :=
  [("frontend", "Frontend Developer"),
   ("backend", "Backend Developer"),
   ("fullstack", "Fullstack Developer"),
   ("mobile", "Mobile Developer"),
   ("student", "Student")]

/-- The order in which one `for key := range roleMapping` loop yields the
entries of the map: Go leaves it unspecified, so it is any arrangement of the
table. -/
structure RangeOrder where
  entries : List (String × String)
  perm : entries.Perm roleMapping

/-- The order of the map literal in the source. -/
def sourceOrder : RangeOrder := ⟨roleMapping, List.Perm.refl _⟩

/-! ## The handlers of `main.go` -/

/-- `assignRole`: assigns a role to the user. -/
def assignRole (U : Unicode) (s : Session) (m : MessageCreate) (roleName : String) :
    List Event :=
  .Guild m.GuildID ::
  match s.Guild m.GuildID with
  | .error err =>
    [.Log ("Error getting guild: " ++ err),
     .ChannelMessageSend m.ChannelID "Error: Could not access server information."]
  | .ok guild =>
    match guild.Roles.find? (fun role => EqualFold U role.Name roleName) with
    | none =>
      [.ChannelMessageSend m.ChannelID ("❌ Role `" ++ roleName ++ "` not found.")]
    | some targetRole =>
      .GuildMember m.GuildID m.AuthorID ::
      match s.GuildMember m.GuildID m.AuthorID with
      | .error err =>
        [.Log ("Error getting member: " ++ err),
         .ChannelMessageSend m.ChannelID "Error: Could not access your member information."]
      | .ok member =>
        if member.Roles.any (fun roleID => roleID == targetRole.ID) then
          [.ChannelMessageSend m.ChannelID ("✅ You already have the role `" ++ roleName ++ "`!")]
        else
          .GuildMemberRoleAdd m.GuildID m.AuthorID targetRole.ID ::
          match s.GuildMemberRoleAdd m.GuildID m.AuthorID targetRole.ID with
          | some err =>
            [.Log ("Error assigning role: " ++ err),
             if Contains err "403" || Contains err "Missing Permissions" then
               .ChannelMessageSend m.ChannelID "❌ Error: Bot doesn't have permission to assign this role. Please make sure the bot's role is higher than the target role in the server settings."
             else
               .ChannelMessageSend m.ChannelID ("❌ Error assigning role: " ++ err)]
          | none =>
            [.ChannelMessageSend m.ChannelID ("✅ Role `" ++ roleName ++ "` has been assigned to you!")]

/-- `removeRole`: removes a role from the user. -/
def removeRole (U : Unicode) (s : Session) (m : MessageCreate) (roleName : String) :
    List Event :=
  .Guild m.GuildID ::
  match s.Guild m.GuildID with
  | .error err =>
    [.Log ("Error getting guild: " ++ err),
     .ChannelMessageSend m.ChannelID "Error: Could not access server information."]
  | .ok guild =>
    match guild.Roles.find? (fun role => EqualFold U role.Name roleName) with
    | none =>
      [.ChannelMessageSend m.ChannelID ("❌ Role `" ++ roleName ++ "` not found.")]
    | some targetRole =>
      .GuildMember m.GuildID m.AuthorID ::
      match s.GuildMember m.GuildID m.AuthorID with
      | .error err =>
        [.Log ("Error getting member: " ++ err),
         .ChannelMessageSend m.ChannelID "Error: Could not access your member information."]
      | .ok member =>
        let hasRole := member.Roles.any (fun roleID => roleID == targetRole.ID)
        if !hasRole then
          [.ChannelMessageSend m.ChannelID ("❌ You don't have the role `" ++ roleName ++ "`.")]
        else
          .GuildMemberRoleRemove m.GuildID m.AuthorID targetRole.ID ::
          match s.GuildMemberRoleRemove m.GuildID m.AuthorID targetRole.ID with
          | some err =>
            [.Log ("Error removing role: " ++ err),
             if Contains err "403" || Contains err "Missing Permissions" then
               .ChannelMessageSend m.ChannelID "❌ Error: Bot doesn't have permission to remove this role. Please make sure the bot's role is higher than the target role in the server settings."
             else
               .ChannelMessageSend m.ChannelID ("❌ Error removing role: " ++ err)]
          | none =>
            [.ChannelMessageSend m.ChannelID ("✅ Role `" ++ roleName ++ "` has been removed from you!")]

/-- `handleIamCommand`: handles the `.iam` command. -/
def handleIamCommand (U : Unicode) (ord : RangeOrder) (s : Session) (m : MessageCreate)
    (args : List String) : List Event :=
  if args.length = 0 then
    [.ChannelMessageSend m.ChannelID "Usage: `.iam <role>` - Available roles: Frontend, Backend, Fullstack, Mobile, Student"]
  else
    let shortName := ToLower U (Join args " ")
    match roleMapping.lookup shortName with
    | none =>
      let availableRoles := ord.entries.map (fun kv => Title U kv.1)
      [.ChannelMessageSend m.ChannelID
        ("❌ Role `" ++ Join args " " ++ "` not found. Available roles: " ++
          Join availableRoles ", ")]
    | some fullRoleName => assignRole U s m fullRoleName

/-- `handleIamNotCommand`: handles the `.iamnot` command for removing roles. -/
def handleIamNotCommand (U : Unicode) (ord : RangeOrder) (s : Session) (m : MessageCreate)
    (args : List String) : List Event :=
  if args.length = 0 then
    [.ChannelMessageSend m.ChannelID "Usage: `.iamnot <role>` - Available roles: Frontend, Backend, Fullstack, Mobile"]
  else
    let shortName := ToLower U (Join args " ")
    match roleMapping.lookup shortName with
    | none =>
      let availableRoles := ord.entries.map (fun kv => Title U kv.1)
      [.ChannelMessageSend m.ChannelID
        ("❌ Role `" ++ Join args " " ++ "` not found. Available roles: " ++
          Join availableRoles ", ")]
    | some fullRoleName => removeRole U s m fullRoleName

/-- `handleHelpCommand`: shows help information. -/
def handleHelpCommand (U : Unicode) (ord : RangeOrder) (m : MessageCreate) : List Event :=
  let availableRoles := ord.entries.map (fun kv => "`" ++ Title U kv.1 ++ "` → " ++ kv.2)
  let helpText := "**Bot Commands:**\n\n" ++
    "`.iam <role>` - Assign yourself a developer role\n" ++
    "`.iamnot <role>` - Remove a developer role from yourself\n" ++
    "`.help` - Show this help message\n\n" ++
    "**Available Roles:**\n" ++
    Join availableRoles "\n" ++ "\n\n" ++
    "**Examples:**\n" ++
    "`.iam Frontend` - Assigns \"Frontend Developer\" role\n" ++
    "`.iam Backend` - Assigns \"Backend Developer\" role\n" ++
    "`.iamnot Frontend` - Removes \"Frontend Developer\" role"
  [.ChannelMessageSend m.ChannelID helpText]

/-- `messageCreate`: handles incoming messages.  `parts[0][1:]` drops the first
byte of the first field; past the `HasPrefix` guard that byte is the rune `.`. -/
def messageCreate (U : Unicode) (cfg : Config) (ord : RangeOrder) (s : Session)
    (m : MessageCreate) : List Event :=
  if m.AuthorID = cfg.botID then []
  else if m.ChannelID ≠ cfg.setRoleChannelID then []
  else if !HasPrefix m.Content "." then []
  else
    let parts := Fields m.Content
    match parts with
    | [] => []
    | part0 :: rest =>
      let command := ToLower U (String.mk (part0.data.drop 1))
      if command = "iam" then handleIamCommand U ord s m rest
      else if command = "iamnot" then handleIamNotCommand U ord s m rest
      else if command = "help" then handleHelpCommand U ord m
      else []

/-! ## Observations on a list of effects -/

/-- The `ChannelMessageSend` calls of a run: channel and text, in order. -/
def sent : List Event → List (String × String)
  | [] => []
  | .ChannelMessageSend c t :: es => (c, t) :: sent es
  | _ :: es => sent es

/-- The calls a run makes on the guild, member and role endpoints, in order:
everything but the responses it sends and the lines it logs. -/
def apiCalls : List Event → List Event
  | [] => []
  | .ChannelMessageSend _ _ :: es => apiCalls es
  | .Log _ :: es => apiCalls es
  | e :: es => e :: apiCalls es

/-- The effect is a `GuildMemberRoleAdd` call. -/
def Event.isRoleAdd : Event → Bool
  | .GuildMemberRoleAdd _ _ _ => true
  | _ => false

/-- The effect is a `GuildMemberRoleRemove` call. -/
def Event.isRoleRemove : Event → Bool
  | .GuildMemberRoleRemove _ _ _ => true
  | _ => false

/-! ## Concrete inputs used in the evaluations -/

/-- A configuration: the bot is user `bot`, commands are read in channel `roles`. -/
def cfg0 : Config := ⟨"bot", "roles"⟩

/-- The roles of guild `g1`: role `r1` is "Frontend Developer". -/
def guild0 : Guild := ⟨[⟨"r0", "Moderator"⟩, ⟨"r1", "Frontend Developer"⟩]⟩

/-- A session in which every call succeeds and the member holds no role. -/
def session0 : Session where
  Guild := fun _ => .ok guild0
  GuildMember := fun _ _ => .ok ⟨[]⟩
  GuildMemberRoleAdd := fun _ _ _ => none
  GuildMemberRoleRemove := fun _ _ _ => none

/-- The session after role `r1` was added: the member holds `r1`. -/
def session1 : Session where
  Guild := fun _ => .ok guild0
  GuildMember := fun _ _ => .ok ⟨["r1"]⟩
  GuildMemberRoleAdd := fun _ _ _ => none
  GuildMemberRoleRemove := fun _ _ _ => none

/-- A message of user `u1` in the command channel of guild `g1`. -/
def msg0 (content : String) : MessageCreate := ⟨"u1", "roles", "g1", content⟩

/-- A session whose guild fetch fails. -/
def sessionNoGuild : Session where
  Guild := fun _ => .error "HTTP 404 Not Found"
  GuildMember := fun _ _ => .ok ⟨[]⟩
  GuildMemberRoleAdd := fun _ _ _ => none
  GuildMemberRoleRemove := fun _ _ _ => none

/-- A session whose member fetch fails. -/
def sessionNoMember : Session where
  Guild := fun _ => .ok guild0
  GuildMember := fun _ _ => .error "HTTP 404 Not Found"
  GuildMemberRoleAdd := fun _ _ _ => none
  GuildMemberRoleRemove := fun _ _ _ => none

/-- A session whose role calls fail with error text `e`; the member holds the
roles `held`. -/
def sessionFailing (held : List String) (e : String) : Session where
  Guild := fun _ => .ok guild0
  GuildMember := fun _ _ => .ok ⟨held⟩
  GuildMemberRoleAdd := fun _ _ _ => some e
  GuildMemberRoleRemove := fun _ _ _ => some e

/-! ## Lemmas on the string functions -/

theorem any_beq_iff (l : List String) (a : String) :
    l.any (fun x => x == a) = true ↔ a ∈ l := by
  simp [List.any_eq_true]

theorem containsAux_iff (sub l : List Char) : containsAux sub l = true ↔ sub <:+: l := by
  induction l with
  | nil => simp [containsAux, List.isEmpty_iff]
  | cons c cs ih =>
    simp only [containsAux, Bool.or_eq_true, ih, List.isPrefixOf_iff_prefix,
      List.infix_cons_iff]

theorem Contains_iff (s sub : String) : Contains s sub = true ↔ sub.data <:+: s.data :=
  containsAux_iff _ _

theorem Contains_append_left (a b sub : String) (h : Contains a sub = true) :
    Contains (a ++ b) sub = true := by
  rw [Contains_iff] at *
  rw [String.data_append]
  exact List.IsInfix.trans h (List.infix_append' [] a.data b.data)

theorem Contains_append_right (a b sub : String) (h : Contains b sub = true) :
    Contains (a ++ b) sub = true := by
  rw [Contains_iff] at *
  rw [String.data_append]
  exact List.IsInfix.trans h (List.suffix_append a.data b.data).isInfix

theorem Contains_self (a : String) : Contains a a = true := by
  rw [Contains_iff]

theorem HasPrefix_append (a b : String) : HasPrefix (a ++ b) a = true := by
  simp [HasPrefix, List.isPrefixOf_iff_prefix]

theorem HasPrefix_append_of (a b p : String) (h : HasPrefix a p = true) :
    HasPrefix (a ++ b) p = true := by
  simp only [HasPrefix, List.isPrefixOf_iff_prefix, String.data_append] at *
  exact List.IsPrefix.trans h (List.prefix_append _ _)

/-! ## Claims -/

/-- C2. Removal is issued exactly when the member holds the role: when the guild
fetch returns a role list whose first role named `N` (case-insensitively) is
`R` and the member fetch returns the member, `removeRole` makes a
`GuildMemberRoleRemove` call if and only if `R.ID` is among the member's role
ids.  When it is not, no remove call is made and the single response contains
"don't have" and is not the removal confirmation; when it is and the call
succeeds, the only remove call is the one for `(m.GuildID, m.Author.ID, R.ID)`
and the single response is the confirmation naming `N`. -/
theorem removeRole_removes_iff_member_holds (U : Unicode) (s : Session) (m : MessageCreate)
    (N : String) (guild : Guild) (R : Role) (member : Member)
    (hg : s.Guild m.GuildID = .ok guild)
    (hR : guild.Roles.find? (fun role => EqualFold U role.Name N) = some R)
    (hm : s.GuildMember m.GuildID m.AuthorID = .ok member) :
    (((removeRole U s m N).filter Event.isRoleRemove ≠ []) ↔ R.ID ∈ member.Roles) ∧
    (R.ID ∉ member.Roles →
      (removeRole U s m N).filter Event.isRoleRemove = [] ∧
      ∃ text, sent (removeRole U s m N) = [(m.ChannelID, text)] ∧
        Contains text "don't have" = true ∧
        text ≠ "✅ Role `" ++ N ++ "` has been removed from you!") ∧
    (R.ID ∈ member.Roles →
      s.GuildMemberRoleRemove m.GuildID m.AuthorID R.ID = none →
      (removeRole U s m N).filter Event.isRoleRemove =
        [.GuildMemberRoleRemove m.GuildID m.AuthorID R.ID] ∧
      sent (removeRole U s m N) =
        [(m.ChannelID, "✅ Role `" ++ N ++ "` has been removed from you!")]) := by
  by_cases hin : R.ID ∈ member.Roles
  · have hany : member.Roles.any (fun roleID => roleID == R.ID) = true :=
      (any_beq_iff _ _).2 hin
    refine ⟨?_, fun h => absurd hin h, ?_⟩
    · cases hr : s.GuildMemberRoleRemove m.GuildID m.AuthorID R.ID <;>
        simp [removeRole, hg, hR, hm, hany, hr, hin, List.filter, Event.isRoleRemove]
    · intro _ hr
      simp [removeRole, hg, hR, hm, hany, hr, List.filter, Event.isRoleRemove, sent]
  · have hany : member.Roles.any (fun roleID => roleID == R.ID) = false := by
      rw [Bool.eq_false_iff, Ne, any_beq_iff]; exact hin
    refine ⟨?_, ?_, fun h => absurd h hin⟩
    · simp [removeRole, hg, hR, hm, hany, hin, List.filter, Event.isRoleRemove]
    · intro _
      refine ⟨?_, "❌ You don't have the role `" ++ N ++ "`.", ?_, ?_, ?_⟩
      · simp [removeRole, hg, hR, hm, hany, List.filter, Event.isRoleRemove]
      · simp [removeRole, hg, hR, hm, hany, sent]
      · exact Contains_append_left _ _ _ (Contains_append_left _ _ _ (by decide))
      · intro h
        have h2 := congrArg (fun t : String => t.data.head?) h
        simp at h2

/-- Witness for C2: the member of `session1` holds `r1`, so `.iamnot frontend`
removes it. -/
theorem removeRole_removes_iff_member_holds_witness :
    session1.Guild "g1" = .ok guild0 ∧
    guild0.Roles.find? (fun role => EqualFold asciiTables role.Name "Frontend Developer") =
      some ⟨"r1", "Frontend Developer"⟩ ∧
    session1.GuildMember "g1" "u1" = .ok ⟨["r1"]⟩ ∧
    (removeRole asciiTables session1 (msg0 ".iamnot frontend") "Frontend Developer").filter
        Event.isRoleRemove = [.GuildMemberRoleRemove "g1" "u1" "r1"] ∧
    sent (removeRole asciiTables session1 (msg0 ".iamnot frontend") "Frontend Developer") =
      [("roles", "✅ Role `Frontend Developer` has been removed from you!")] :=
  ⟨rfl, by decide, rfl,
    (removeRole_removes_iff_member_holds asciiTables session1 (msg0 ".iamnot frontend")
      "Frontend Developer" guild0 ⟨"r1", "Frontend Developer"⟩ ⟨["r1"]⟩ rfl (by decide) rfl).2.2
      (by decide) rfl⟩

/-- C6. Role absent from the guild: when the guild fetch succeeds and no role
of the guild has a name equal to `N` case-insensitively, `assignRole` and
`removeRole` each make the guild fetch and no other guild, member or role call,
and send exactly one response, which contains "❌", "not found" and `N`. -/
theorem role_absent_one_not_found_response (U : Unicode) (s : Session) (m : MessageCreate)
    (N : String) (guild : Guild)
    (hg : s.Guild m.GuildID = .ok guild)
    (habs : ∀ role ∈ guild.Roles, EqualFold U role.Name N = false) :
    (apiCalls (assignRole U s m N) = [.Guild m.GuildID] ∧
      ∃ text, sent (assignRole U s m N) = [(m.ChannelID, text)] ∧
        Contains text "❌" = true ∧ Contains text "not found" = true ∧
        Contains text N = true) ∧
    (apiCalls (removeRole U s m N) = [.Guild m.GuildID] ∧
      ∃ text, sent (removeRole U s m N) = [(m.ChannelID, text)] ∧
        Contains text "❌" = true ∧ Contains text "not found" = true ∧
        Contains text N = true) := by
  have hnone : guild.Roles.find? (fun role => EqualFold U role.Name N) = none := by
    rw [List.find?_eq_none]
    intro role hrole
    simp [habs role hrole]
  have htext : Contains ("❌ Role `" ++ N ++ "` not found.") "❌" = true ∧
      Contains ("❌ Role `" ++ N ++ "` not found.") "not found" = true ∧
      Contains ("❌ Role `" ++ N ++ "` not found.") N = true :=
    ⟨Contains_append_left _ _ _ (Contains_append_left _ _ _ (by decide)),
     Contains_append_right _ _ _ (by decide),
     Contains_append_left _ _ _ (Contains_append_right _ _ _ (Contains_self N))⟩
  refine ⟨⟨?_, _, ?_, htext⟩, ⟨?_, _, ?_, htext⟩⟩ <;>
    simp [assignRole, removeRole, hg, hnone, apiCalls, sent]

/-- Witness for C6: `guild0` has no role named "Backend Developer". -/
theorem role_absent_one_not_found_response_witness :
    session0.Guild "g1" = .ok guild0 ∧
    (∀ role ∈ guild0.Roles, EqualFold asciiTables role.Name "Backend Developer" = false) ∧
    apiCalls (assignRole asciiTables session0 (msg0 ".iam backend") "Backend Developer") =
      [.Guild "g1"] :=
  ⟨rfl, by decide,
    (role_absent_one_not_found_response asciiTables session0 (msg0 ".iam backend")
      "Backend Developer" guild0 rfl (by decide)).1.1⟩

theorem generic_assign_ne_guidance (e : String) :
    "❌ Error assigning role: " ++ e ≠ "❌ Error: Bot doesn't have permission to assign this role. Please make sure the bot's role is higher than the target role in the server settings." := by
  intro h
  have h2 := congrArg (fun t : String => t.data.take 9) h
  simp at h2

theorem generic_remove_ne_guidance (e : String) :
    "❌ Error removing role: " ++ e ≠ "❌ Error: Bot doesn't have permission to remove this role. Please make sure the bot's role is higher than the target role in the server settings." := by
  intro h
  have h2 := congrArg (fun t : String => t.data.take 9) h
  simp at h2

/-- C7 as stated fails: an add-role error whose text is "forbidden" contains
"forbidden" and still gets the generic message, and an error whose text is
"403" contains neither "forbidden" nor "missing permissions" and gets the
role-hierarchy guidance. -/
theorem mutation_failure_forbidden_counterexample :
    Contains "forbidden" "forbidden" = true ∧
    sent (assignRole asciiTables (sessionFailing [] "forbidden") (msg0 ".iam frontend")
        "Frontend Developer") =
      [("roles", "❌ Error assigning role: forbidden")] ∧
    Contains "403" "forbidden" = false ∧ Contains "403" "missing permissions" = false ∧
    sent (assignRole asciiTables (sessionFailing [] "403") (msg0 ".iam frontend")
        "Frontend Developer") =
      [("roles", "❌ Error: Bot doesn't have permission to assign this role. Please make sure the bot's role is higher than the target role in the server settings.")] := by
  decide

/-- C7, amended. When the add-role call of `assignRole` (resp. the remove-role
call of `removeRole`) fails with error text `e`, the single response is the
role-hierarchy guidance message exactly when `e` contains "403" or
"Missing Permissions", and otherwise it is "❌ Error assigning role: e"
(resp. "❌ Error removing role: e"); the failed call is the only mutation call
of the run. -/
theorem mutation_failure_classified_by_403 (U : Unicode) (s : Session) (m : MessageCreate)
    (N : String) (guild : Guild) (R : Role) (member : Member) (e : String)
    (hg : s.Guild m.GuildID = .ok guild)
    (hR : guild.Roles.find? (fun role => EqualFold U role.Name N) = some R)
    (hm : s.GuildMember m.GuildID m.AuthorID = .ok member) :
    (R.ID ∉ member.Roles → s.GuildMemberRoleAdd m.GuildID m.AuthorID R.ID = some e →
      (∃ text, sent (assignRole U s m N) = [(m.ChannelID, text)] ∧
        (text = "❌ Error: Bot doesn't have permission to assign this role. Please make sure the bot's role is higher than the target role in the server settings." ↔
          (Contains e "403" = true ∨ Contains e "Missing Permissions" = true)) ∧
        (¬ (Contains e "403" = true ∨ Contains e "Missing Permissions" = true) →
          text = "❌ Error assigning role: " ++ e)) ∧
      (assignRole U s m N).filter (fun ev => ev.isRoleAdd || ev.isRoleRemove) =
        [.GuildMemberRoleAdd m.GuildID m.AuthorID R.ID]) ∧
    (R.ID ∈ member.Roles → s.GuildMemberRoleRemove m.GuildID m.AuthorID R.ID = some e →
      (∃ text, sent (removeRole U s m N) = [(m.ChannelID, text)] ∧
        (text = "❌ Error: Bot doesn't have permission to remove this role. Please make sure the bot's role is higher than the target role in the server settings." ↔
          (Contains e "403" = true ∨ Contains e "Missing Permissions" = true)) ∧
        (¬ (Contains e "403" = true ∨ Contains e "Missing Permissions" = true) →
          text = "❌ Error removing role: " ++ e)) ∧
      (removeRole U s m N).filter (fun ev => ev.isRoleAdd || ev.isRoleRemove) =
        [.GuildMemberRoleRemove m.GuildID m.AuthorID R.ID]) := by
  constructor
  · intro hin hadd
    have hany : member.Roles.any (fun roleID => roleID == R.ID) = false := by
      rw [Bool.eq_false_iff, Ne, any_beq_iff]; exact hin
    by_cases hc : Contains e "403" = true ∨ Contains e "Missing Permissions" = true
    · refine ⟨⟨_, ?_, iff_of_true rfl hc, fun h => absurd hc h⟩, ?_⟩ <;>
        simp [assignRole, hg, hR, hm, hany, hadd, hc, sent, List.filter, Event.isRoleAdd,
          Event.isRoleRemove]
    · refine ⟨⟨_, ?_, iff_of_false (generic_assign_ne_guidance e) hc, fun _ => rfl⟩, ?_⟩ <;>
        simp [assignRole, hg, hR, hm, hany, hadd, hc, sent, List.filter, Event.isRoleAdd,
          Event.isRoleRemove]
  · intro hin hrem
    have hany : member.Roles.any (fun roleID => roleID == R.ID) = true :=
      (any_beq_iff _ _).2 hin
    by_cases hc : Contains e "403" = true ∨ Contains e "Missing Permissions" = true
    · refine ⟨⟨_, ?_, iff_of_true rfl hc, fun h => absurd hc h⟩, ?_⟩ <;>
        simp [removeRole, hg, hR, hm, hany, hrem, hc, sent, List.filter, Event.isRoleAdd,
          Event.isRoleRemove]
    · refine ⟨⟨_, ?_, iff_of_false (generic_remove_ne_guidance e) hc, fun _ => rfl⟩, ?_⟩ <;>
        simp [removeRole, hg, hR, hm, hany, hrem, hc, sent, List.filter, Event.isRoleAdd,
          Event.isRoleRemove]

/-- Witness for C7: a remove-role call that fails with a Discord permission
error gets the guidance message. -/
theorem mutation_failure_classified_by_403_witness :
    (sessionFailing ["r1"] "HTTP 403 Forbidden").Guild "g1" = .ok guild0 ∧
    guild0.Roles.find? (fun role => EqualFold asciiTables role.Name "Frontend Developer") =
      some ⟨"r1", "Frontend Developer"⟩ ∧
    (sessionFailing ["r1"] "HTTP 403 Forbidden").GuildMember "g1" "u1" = .ok ⟨["r1"]⟩ ∧
    "r1" ∈ ["r1"] ∧
    (sessionFailing ["r1"] "HTTP 403 Forbidden").GuildMemberRoleRemove "g1" "u1" "r1" =
      some "HTTP 403 Forbidden" ∧
    (removeRole asciiTables (sessionFailing ["r1"] "HTTP 403 Forbidden")
        (msg0 ".iamnot frontend") "Frontend Developer").filter
        (fun ev => ev.isRoleAdd || ev.isRoleRemove) =
      [.GuildMemberRoleRemove "g1" "u1" "r1"] :=
  ⟨rfl, by decide, rfl, by decide, rfl,
    ((mutation_failure_classified_by_403 asciiTables (sessionFailing ["r1"] "HTTP 403 Forbidden")
      (msg0 ".iamnot frontend") "Frontend Developer" guild0 ⟨"r1", "Frontend Developer"⟩
      ⟨["r1"]⟩ "HTTP 403 Forbidden" rfl (by decide) rfl).2 (by decide) rfl).2⟩

/-- C8. Terminal on first failure, one response per command.  For every
session, message and role name, the guild, member and role calls of
`assignRole` (resp. `removeRole`) are the guild fetch, or the guild fetch and
the member fetch, or these two and one add-role (resp. remove-role) call; the
member fetch is made only if the guild fetch succeeded and found a matching
role `R`, the mutation call only if moreover the member fetch succeeded and the
membership check passed, and it is the call for `R.ID`; a guild-fetch failure
is answered "Error: Could not access server information." and a member-fetch
failure "Error: Could not access your member information."; and in every case
exactly one response is sent, to `m.ChannelID`, as the last effect of the run. -/
theorem terminal_on_first_failure_one_response (U : Unicode) (s : Session)
    (m : MessageCreate) (N : String) :
    ((apiCalls (assignRole U s m N) = [.Guild m.GuildID] ∨
      apiCalls (assignRole U s m N) = [.Guild m.GuildID, .GuildMember m.GuildID m.AuthorID] ∨
      ∃ rid, apiCalls (assignRole U s m N) =
        [.Guild m.GuildID, .GuildMember m.GuildID m.AuthorID,
         .GuildMemberRoleAdd m.GuildID m.AuthorID rid]) ∧
     (Event.GuildMember m.GuildID m.AuthorID ∈ assignRole U s m N →
        ∃ guild R, s.Guild m.GuildID = .ok guild ∧
          guild.Roles.find? (fun role => EqualFold U role.Name N) = some R) ∧
     (∀ rid, Event.GuildMemberRoleAdd m.GuildID m.AuthorID rid ∈ assignRole U s m N →
        ∃ guild R member, s.Guild m.GuildID = .ok guild ∧
          guild.Roles.find? (fun role => EqualFold U role.Name N) = some R ∧
          s.GuildMember m.GuildID m.AuthorID = .ok member ∧
          R.ID ∉ member.Roles ∧ rid = R.ID) ∧
     (∀ e, s.Guild m.GuildID = .error e →
        sent (assignRole U s m N) =
          [(m.ChannelID, "Error: Could not access server information.")]) ∧
     (∀ guild R e, s.Guild m.GuildID = .ok guild →
        guild.Roles.find? (fun role => EqualFold U role.Name N) = some R →
        s.GuildMember m.GuildID m.AuthorID = .error e →
        sent (assignRole U s m N) =
          [(m.ChannelID, "Error: Could not access your member information.")]) ∧
     (∃ text, sent (assignRole U s m N) = [(m.ChannelID, text)] ∧
        (assignRole U s m N).getLast? = some (.ChannelMessageSend m.ChannelID text))) ∧
    ((apiCalls (removeRole U s m N) = [.Guild m.GuildID] ∨
      apiCalls (removeRole U s m N) = [.Guild m.GuildID, .GuildMember m.GuildID m.AuthorID] ∨
      ∃ rid, apiCalls (removeRole U s m N) =
        [.Guild m.GuildID, .GuildMember m.GuildID m.AuthorID,
         .GuildMemberRoleRemove m.GuildID m.AuthorID rid]) ∧
     (Event.GuildMember m.GuildID m.AuthorID ∈ removeRole U s m N →
        ∃ guild R, s.Guild m.GuildID = .ok guild ∧
          guild.Roles.find? (fun role => EqualFold U role.Name N) = some R) ∧
     (∀ rid, Event.GuildMemberRoleRemove m.GuildID m.AuthorID rid ∈ removeRole U s m N →
        ∃ guild R member, s.Guild m.GuildID = .ok guild ∧
          guild.Roles.find? (fun role => EqualFold U role.Name N) = some R ∧
          s.GuildMember m.GuildID m.AuthorID = .ok member ∧
          R.ID ∈ member.Roles ∧ rid = R.ID) ∧
     (∀ e, s.Guild m.GuildID = .error e →
        sent (removeRole U s m N) =
          [(m.ChannelID, "Error: Could not access server information.")]) ∧
     (∀ guild R e, s.Guild m.GuildID = .ok guild →
        guild.Roles.find? (fun role => EqualFold U role.Name N) = some R →
        s.GuildMember m.GuildID m.AuthorID = .error e →
        sent (removeRole U s m N) =
          [(m.ChannelID, "Error: Could not access your member information.")]) ∧
     (∃ text, sent (removeRole U s m N) = [(m.ChannelID, text)] ∧
        (removeRole U s m N).getLast? = some (.ChannelMessageSend m.ChannelID text))) := by
  cases hg : s.Guild m.GuildID with
  | error e => simp [assignRole, removeRole, hg, apiCalls, sent]
  | ok guild =>
    cases hR : guild.Roles.find? (fun role => EqualFold U role.Name N) with
    | none =>
      simp only [assignRole, removeRole, hg, hR, apiCalls, sent]
      have hno : ∀ (guild1 : Guild) (R : Role), Except.ok (ε := String) guild = .ok guild1 →
          guild1.Roles.find? (fun role => EqualFold U role.Name N) ≠ some R := by
        intro guild1 R h1 h2
        cases h1
        rw [hR] at h2
        cases h2
      refine ⟨⟨?_, ?_, ?_, ?_, ?_, ?_⟩, ⟨?_, ?_, ?_, ?_, ?_, ?_⟩⟩ <;>
        first
        | (intro guild1 R1 e1 h1 h2; exact absurd h2 (hno guild1 R1 h1))
        | simp
    | some R =>
      cases hm : s.GuildMember m.GuildID m.AuthorID with
      | error e => simp [assignRole, removeRole, hg, hR, hm, apiCalls, sent]
      | ok member =>
        by_cases hin : R.ID ∈ member.Roles
        · have hany : member.Roles.any (fun roleID => roleID == R.ID) = true :=
            (any_beq_iff _ _).2 hin
          cases hrem : s.GuildMemberRoleRemove m.GuildID m.AuthorID R.ID with
          | none => simp [assignRole, removeRole, hg, hR, hm, hany, hin, hrem, apiCalls, sent]
          | some e =>
            by_cases hc : Contains e "403" = true ∨ Contains e "Missing Permissions" = true <;>
              simp [assignRole, removeRole, hg, hR, hm, hany, hin, hrem, hc, apiCalls, sent]
        · have hany : member.Roles.any (fun roleID => roleID == R.ID) = false := by
            rw [Bool.eq_false_iff, Ne, any_beq_iff]; exact hin
          cases hadd : s.GuildMemberRoleAdd m.GuildID m.AuthorID R.ID with
          | none => simp [assignRole, removeRole, hg, hR, hm, hany, hin, hadd, apiCalls, sent]
          | some e =>
            by_cases hc : Contains e "403" = true ∨ Contains e "Missing Permissions" = true <;>
              simp [assignRole, removeRole, hg, hR, hm, hany, hin, hadd, hc, apiCalls, sent]

/-- Witness for C8: with the guild fetch failing, the run of `assignRole` is
answered with the server-information error. -/
theorem terminal_on_first_failure_one_response_witness :
    sessionNoGuild.Guild "g1" = .error "HTTP 404 Not Found" ∧
    sent (assignRole asciiTables sessionNoGuild (msg0 ".iam frontend") "Frontend Developer") =
      [("roles", "Error: Could not access server information.")] :=
  ⟨rfl, (terminal_on_first_failure_one_response asciiTables sessionNoGuild
    (msg0 ".iam frontend") "Frontend Developer").1.2.2.2.1 "HTTP 404 Not Found" rfl⟩

/-- C10 as stated fails: the "role not held" answer of `.iamnot` begins with
"❌" and not with "✅", and the answers to a failed guild fetch and to a failed
member fetch begin with neither emoji. -/
theorem emoji_convention_counterexample :
    sent (removeRole asciiTables session0 (msg0 ".iamnot frontend") "Frontend Developer") =
      [("roles", "❌ You don't have the role `Frontend Developer`.")] ∧
    HasPrefix "❌ You don't have the role `Frontend Developer`." "✅" = false ∧
    sent (assignRole asciiTables sessionNoGuild (msg0 ".iam frontend") "Frontend Developer") =
      [("roles", "Error: Could not access server information.")] ∧
    HasPrefix "Error: Could not access server information." "❌" = false ∧
    sent (assignRole asciiTables sessionNoMember (msg0 ".iam frontend") "Frontend Developer") =
      [("roles", "Error: Could not access your member information.")] ∧
    HasPrefix "Error: Could not access your member information." "❌" = false := by
  decide

/-- C10, amended. Every run of `assignRole` and of `removeRole` sends one
response.  It begins with "✅" when the role was assigned, was removed, or was
already held on `.iam`; it begins with "❌" when the role is absent from the
guild, when the role is not held on `.iamnot`, and when the mutation call
fails; after a failed guild fetch or member fetch it is the plain text
"Error: Could not access server information." resp.
"Error: Could not access your member information.".  The response of
`handleIamCommand` and `handleIamNotCommand` to an unknown alias begins with
"❌". -/
theorem emoji_convention_by_outcome (U : Unicode) (ord : RangeOrder) (s : Session)
    (m : MessageCreate) (N : String) (args : List String) :
    (∃ text, sent (assignRole U s m N) = [(m.ChannelID, text)] ∧
      (∀ e, s.Guild m.GuildID = .error e →
        text = "Error: Could not access server information.") ∧
      (∀ guild, s.Guild m.GuildID = .ok guild →
        (guild.Roles.find? (fun role => EqualFold U role.Name N) = none →
          HasPrefix text "❌" = true) ∧
        ∀ R, guild.Roles.find? (fun role => EqualFold U role.Name N) = some R →
          (∀ e, s.GuildMember m.GuildID m.AuthorID = .error e →
            text = "Error: Could not access your member information.") ∧
          ∀ member, s.GuildMember m.GuildID m.AuthorID = .ok member →
            (R.ID ∈ member.Roles → HasPrefix text "✅" = true) ∧
            (R.ID ∉ member.Roles →
              (∀ e, s.GuildMemberRoleAdd m.GuildID m.AuthorID R.ID = some e →
                HasPrefix text "❌" = true) ∧
              (s.GuildMemberRoleAdd m.GuildID m.AuthorID R.ID = none →
                HasPrefix text "✅" = true)))) ∧
    (∃ text, sent (removeRole U s m N) = [(m.ChannelID, text)] ∧
      (∀ e, s.Guild m.GuildID = .error e →
        text = "Error: Could not access server information.") ∧
      (∀ guild, s.Guild m.GuildID = .ok guild →
        (guild.Roles.find? (fun role => EqualFold U role.Name N) = none →
          HasPrefix text "❌" = true) ∧
        ∀ R, guild.Roles.find? (fun role => EqualFold U role.Name N) = some R →
          (∀ e, s.GuildMember m.GuildID m.AuthorID = .error e →
            text = "Error: Could not access your member information.") ∧
          ∀ member, s.GuildMember m.GuildID m.AuthorID = .ok member →
            (R.ID ∉ member.Roles → HasPrefix text "❌" = true) ∧
            (R.ID ∈ member.Roles →
              (∀ e, s.GuildMemberRoleRemove m.GuildID m.AuthorID R.ID = some e →
                HasPrefix text "❌" = true) ∧
              (s.GuildMemberRoleRemove m.GuildID m.AuthorID R.ID = none →
                HasPrefix text "✅" = true)))) ∧
    (args ≠ [] → roleMapping.lookup (ToLower U (Join args " ")) = none →
      (∃ text, sent (handleIamCommand U ord s m args) = [(m.ChannelID, text)] ∧
        HasPrefix text "❌" = true) ∧
      (∃ text, sent (handleIamNotCommand U ord s m args) = [(m.ChannelID, text)] ∧
        HasPrefix text "❌" = true)) := by
  have hx : ∀ a b : String, HasPrefix ("❌ Role `" ++ a ++ b) "❌" = true := fun a b =>
    HasPrefix_append_of _ _ _ (HasPrefix_append_of _ _ _ (by decide))
  have hc1 : ∀ a b : String, HasPrefix ("✅ Role `" ++ a ++ b) "✅" = true := fun a b =>
    HasPrefix_append_of _ _ _ (HasPrefix_append_of _ _ _ (by decide))
  have hc2 : ∀ a b : String, HasPrefix ("✅ You already have the role `" ++ a ++ b) "✅" = true :=
    fun a b => HasPrefix_append_of _ _ _ (HasPrefix_append_of _ _ _ (by decide))
  have hx2 : ∀ a b : String, HasPrefix ("❌ You don't have the role `" ++ a ++ b) "❌" = true :=
    fun a b => HasPrefix_append_of _ _ _ (HasPrefix_append_of _ _ _ (by decide))
  have hx3 : ∀ a : String, HasPrefix ("❌ Error assigning role: " ++ a) "❌" = true :=
    fun a => HasPrefix_append_of _ _ _ (by decide)
  have hx4 : ∀ a : String, HasPrefix ("❌ Error removing role: " ++ a) "❌" = true :=
    fun a => HasPrefix_append_of _ _ _ (by decide)
  have hx5 : HasPrefix "❌ Error: Bot doesn't have permission to assign this role. Please make sure the bot's role is higher than the target role in the server settings." "❌" = true := by
    decide
  have hx6 : HasPrefix "❌ Error: Bot doesn't have permission to remove this role. Please make sure the bot's role is higher than the target role in the server settings." "❌" = true := by
    decide
  refine ⟨?_, ?_, ?_⟩
  · cases hg : s.Guild m.GuildID with
    | error e => simp [assignRole, hg, sent]
    | ok guild =>
      cases hR : guild.Roles.find? (fun role => EqualFold U role.Name N) with
      | none => simp only [assignRole, hg, hR, sent]; simp [-List.find?_eq_none, hx, hR]
      | some R =>
        cases hm : s.GuildMember m.GuildID m.AuthorID with
        | error e => simp only [assignRole, hg, hR, hm, sent]; simp [-List.find?_eq_none, hR]
        | ok member =>
          by_cases hin : R.ID ∈ member.Roles
          · have hany : member.Roles.any (fun roleID => roleID == R.ID) = true :=
              (any_beq_iff _ _).2 hin
            simp only [assignRole, hg, hR, hm, hany, sent]
            simp [-List.find?_eq_none, hR, hin, hc2]
          · have hany : member.Roles.any (fun roleID => roleID == R.ID) = false := by
              rw [Bool.eq_false_iff, Ne, any_beq_iff]; exact hin
            cases hadd : s.GuildMemberRoleAdd m.GuildID m.AuthorID R.ID with
            | none =>
              simp only [assignRole, hg, hR, hm, hany, hadd, sent]
              simp [-List.find?_eq_none, hR, hadd, hin, hc1]
            | some e =>
              by_cases hc : Contains e "403" = true ∨ Contains e "Missing Permissions" = true
              · have hcb : (Contains e "403" || Contains e "Missing Permissions") = true := by
                  simpa using hc
                simp only [assignRole, hg, hR, hm, hany, hadd, hcb, sent, ↓reduceIte]
                simp [-List.find?_eq_none, hR, hadd, hin, hx5]
              · have hcb : (Contains e "403" || Contains e "Missing Permissions") = false := by
                  simpa using hc
                simp only [assignRole, hg, hR, hm, hany, hadd, hcb, sent, Bool.false_eq_true, ↓reduceIte]
                simp [-List.find?_eq_none, hR, hadd, hin, hx3]
  · cases hg : s.Guild m.GuildID with
    | error e => simp [removeRole, hg, sent]
    | ok guild =>
      cases hR : guild.Roles.find? (fun role => EqualFold U role.Name N) with
      | none => simp only [removeRole, hg, hR, sent]; simp [-List.find?_eq_none, hx, hR]
      | some R =>
        cases hm : s.GuildMember m.GuildID m.AuthorID with
        | error e => simp only [removeRole, hg, hR, hm, sent]; simp [-List.find?_eq_none, hR]
        | ok member =>
          by_cases hin : R.ID ∈ member.Roles
          · have hany : member.Roles.any (fun roleID => roleID == R.ID) = true :=
              (any_beq_iff _ _).2 hin
            cases hrem : s.GuildMemberRoleRemove m.GuildID m.AuthorID R.ID with
            | none =>
              simp only [removeRole, hg, hR, hm, hany, hrem, sent]
              simp [-List.find?_eq_none, hR, hrem, hin, hc1]
            | some e =>
              by_cases hc : Contains e "403" = true ∨ Contains e "Missing Permissions" = true
              · have hcb : (Contains e "403" || Contains e "Missing Permissions") = true := by
                  simpa using hc
                simp only [removeRole, hg, hR, hm, hany, hrem, hcb, sent, ↓reduceIte]
                simp [-List.find?_eq_none, hR, hrem, hin, hx6]
              · have hcb : (Contains e "403" || Contains e "Missing Permissions") = false := by
                  simpa using hc
                simp only [removeRole, hg, hR, hm, hany, hrem, hcb, sent, Bool.false_eq_true, ↓reduceIte]
                simp [-List.find?_eq_none, hR, hrem, hin, hx4]
          · have hany : member.Roles.any (fun roleID => roleID == R.ID) = false := by
              rw [Bool.eq_false_iff, Ne, any_beq_iff]; exact hin
            simp only [removeRole, hg, hR, hm, hany, sent]
            simp [-List.find?_eq_none, hR, hin, hx2]
  · intro hne hmiss
    have hlen : ¬ args.length = 0 := by
      intro h; exact hne (List.length_eq_zero.mp h)
    simp only [handleIamCommand, handleIamNotCommand, hlen, hmiss, if_false, sent]
    refine ⟨⟨_, rfl, ?_⟩, ⟨_, rfl, ?_⟩⟩ <;>
      exact HasPrefix_append_of _ _ _ (HasPrefix_append_of _ _ _
        (HasPrefix_append_of _ _ _ (by decide)))

theorem fieldsAux_nonspace (tok : List Char) (htok : ∀ c ∈ tok, IsSpace c = false) :
    ∀ (l cur : List Char), fieldsAux (tok ++ l) cur = fieldsAux l (tok.reverse ++ cur) := by
  induction tok with
  | nil => intro l cur; rfl
  | cons c cs ih =>
    intro l cur
    have hc : IsSpace c = false := htok c (List.mem_cons_self _ _)
    have hcs : ∀ d ∈ cs, IsSpace d = false := fun d hd => htok d (List.mem_cons_of_mem _ hd)
    show (if IsSpace c = true then _ else fieldsAux (cs ++ l) (c :: cur)) = _
    rw [if_neg (by simp [hc]), ih hcs]
    simp

theorem fieldsAux_spaces (ws : List Char) (hws : ∀ c ∈ ws, IsSpace c = true) :
    ∀ l : List Char, fieldsAux (ws ++ l) [] = fieldsAux l [] := by
  induction ws with
  | nil => intro l; rfl
  | cons c cs ih =>
    intro l
    have hc : IsSpace c = true := hws c (List.mem_cons_self _ _)
    have hcs : ∀ d ∈ cs, IsSpace d = true := fun d hd => hws d (List.mem_cons_of_mem _ hd)
    show (if IsSpace c = true then
        (if ([] : List Char).isEmpty then fieldsAux (cs ++ l) [] else _) else _) = _
    rw [if_pos hc]
    exact ih hcs l

theorem fieldsAux_space_cons (c : Char) (hc : IsSpace c = true) (l cur : List Char)
    (hcur : cur ≠ []) : fieldsAux (c :: l) cur = String.mk cur.reverse :: fieldsAux l [] := by
  have he : cur.isEmpty = false := by
    cases cur with
    | nil => exact absurd rfl hcur
    | cons _ _ => rfl
  simp [fieldsAux, hc, he]

theorem fieldsAux_head (l : List Char) :
    ∀ cur : List Char, cur ≠ [] →
      ∃ tok rest, fieldsAux l cur = String.mk (cur.reverse ++ tok) :: rest := by
  induction l with
  | nil =>
    intro cur hcur
    have he : cur.isEmpty = false := by
      cases cur with
      | nil => exact absurd rfl hcur
      | cons _ _ => rfl
    exact ⟨[], [], by simp [fieldsAux, he]⟩
  | cons c cs ih =>
    intro cur hcur
    by_cases hc : IsSpace c = true
    · exact ⟨[], fieldsAux cs [], by rw [fieldsAux_space_cons c hc cs cur hcur]; simp⟩
    · obtain ⟨tok, rest, h⟩ := ih (c :: cur) (List.cons_ne_nil _ _)
      refine ⟨c :: tok, rest, ?_⟩
      simp only [fieldsAux, hc, if_false, Bool.false_eq_true]
      rw [h]
      simp

/-- The fields of a text made of two space-free words, white space between them
and white space after them. -/
theorem Fields_two_words (tok1 ws1 tok2 ws2 : List Char)
    (h1 : ∀ c ∈ tok1, IsSpace c = false) (h1ne : tok1 ≠ [])
    (hw1 : ∀ c ∈ ws1, IsSpace c = true) (hw1ne : ws1 ≠ [])
    (h2 : ∀ c ∈ tok2, IsSpace c = false) (h2ne : tok2 ≠ [])
    (hw2 : ∀ c ∈ ws2, IsSpace c = true) :
    Fields (String.mk (tok1 ++ (ws1 ++ (tok2 ++ ws2)))) = [String.mk tok1, String.mk tok2] := by
  unfold Fields
  simp only []
  rw [fieldsAux_nonspace tok1 h1]
  cases ws1 with
  | nil => exact absurd rfl hw1ne
  | cons c ws1 =>
    have hc : IsSpace c = true := hw1 c (List.mem_cons_self _ _)
    have hws : ∀ d ∈ ws1, IsSpace d = true := fun d hd => hw1 d (List.mem_cons_of_mem _ hd)
    rw [List.cons_append, fieldsAux_space_cons c hc _ _ (by simpa using h1ne)]
    rw [fieldsAux_spaces ws1 hws, fieldsAux_nonspace tok2 h2]
    cases ws2 with
    | nil =>
      have he : tok2.reverse.isEmpty = false := by
        cases tok2 with
        | nil => exact absurd rfl h2ne
        | cons _ _ => simp
      simp [fieldsAux, he]
    | cons d ws2 =>
      have hd : IsSpace d = true := hw2 d (List.mem_cons_self _ _)
      have hws2 : ∀ x ∈ ws2, IsSpace x = true := fun x hx => hw2 x (List.mem_cons_of_mem _ hx)
      rw [fieldsAux_space_cons d hd _ _ (by simpa using h2ne)]
      have := fieldsAux_spaces ws2 hws2 []
      rw [List.append_nil] at this
      rw [this]
      simp [fieldsAux]

theorem Fields_of_dot (s : String) (h : HasPrefix s "." = true) :
    ∃ part0 rest, Fields s = part0 :: rest ∧ HasPrefix part0 "." = true := by
  obtain ⟨l⟩ := s
  cases l with
  | nil => simp [HasPrefix] at h
  | cons c cs =>
    have hc : c = '.' := by
      simp [HasPrefix, List.isPrefixOf] at h
      exact h.symm
    subst hc
    obtain ⟨tok, rest, ht⟩ := fieldsAux_head cs ['.'] (List.cons_ne_nil _ _)
    refine ⟨String.mk (['.'].reverse ++ tok), rest, ?_, ?_⟩
    · show fieldsAux ('.' :: cs) [] = _
      have hd : IsSpace '.' = false := by decide
      simp only [fieldsAux, hd, Bool.false_eq_true, if_false]
      exact ht
    · simp [HasPrefix, List.isPrefixOf]

theorem map_ToLower_ascii (U : Unicode) (l : List Char) (h : ∀ c ∈ l, c.toNat < 128) :
    l.map U.ToLower = l.map Char.toLower := by
  apply List.map_congr_left
  intro c hc
  exact U.ToLower_ascii c (h c hc)

theorem ToLower_ascii (U : Unicode) (s : String) (h : ∀ c ∈ s.data, c.toNat < 128) :
    ToLower U s = ToLower asciiTables s := by
  simp only [ToLower]
  rw [map_ToLower_ascii U _ h]
  rfl

theorem isSeparator_ascii (U : Unicode) (c : Char) (h : c.toNat < 128) :
    isSeparator U c = isSeparator asciiTables c := by
  have h2 : c.toNat ≤ 127 := by omega
  simp [isSeparator, h2]

theorem titleAux_ascii (U : Unicode) (l : List Char) (h : ∀ c ∈ l, c.toNat < 128) :
    ∀ prev : Char, prev.toNat < 128 → titleAux U prev l = titleAux asciiTables prev l := by
  induction l with
  | nil => intro prev _; rfl
  | cons c cs ih =>
    intro prev hprev
    have hc : c.toNat < 128 := h c (List.mem_cons_self _ _)
    have hcs : ∀ d ∈ cs, d.toNat < 128 := fun d hd => h d (List.mem_cons_of_mem _ hd)
    simp only [titleAux]
    rw [ih hcs c hc, isSeparator_ascii U prev hprev, U.ToTitle_ascii c hc]
    rfl

theorem Title_ascii (U : Unicode) (s : String) (h : ∀ c ∈ s.data, c.toNat < 128) :
    Title U s = Title asciiTables s := by
  simp only [Title]
  rw [titleAux_ascii U _ h ' ' (by decide)]

theorem Contains_Join_of_mem (sep x : String) :
    ∀ l : List String, x ∈ l → Contains (Join l sep) x = true := by
  intro l
  induction l with
  | nil => intro h; simp at h
  | cons e es ih =>
    intro h
    cases es with
    | nil =>
      simp at h
      subst h
      simp [Join, Contains_self]
    | cons e2 es =>
      simp only [Join]
      rcases List.mem_cons.mp h with h | h
      · subst h
        exact Contains_append_left _ _ _ (Contains_append_left _ _ _ (Contains_self _))
      · exact Contains_append_right _ _ _ (ih h)

theorem titles_of_roleMapping (U : Unicode) :
    roleMapping.map (fun kv => Title U kv.1) =
      ["Frontend", "Backend", "Fullstack", "Mobile", "Student"] := by
  have h : ∀ kv ∈ roleMapping, Title U kv.1 = Title asciiTables kv.1 := by
    intro kv hkv
    apply Title_ascii
    revert kv
    decide
  rw [List.map_congr_left h]
  decide

theorem mem_titles_of_range (U : Unicode) (ord : RangeOrder) (name : String)
    (h : name ∈ ["Frontend", "Backend", "Fullstack", "Mobile", "Student"]) :
    name ∈ ord.entries.map (fun kv => Title U kv.1) := by
  rw [← titles_of_roleMapping U] at h
  exact (List.Perm.map _ ord.perm).mem_iff.mpr h

/-- C4. Unknown alias: for a non-empty argument list whose lookup key (the
arguments joined by single spaces, lowercased) is not a key of `roleMapping`,
`handleIamCommand` and `handleIamNotCommand` each perform exactly one effect, a
response to `m.ChannelID` (so no guild fetch, member fetch, add-role or
remove-role call), and that response starts with "❌" and contains each of
"Frontend", "Backend", "Fullstack", "Mobile" and "Student", which are the keys
of `roleMapping` with the first letter capitalised, whatever the order in
which the map is enumerated. -/
theorem unknown_alias_lists_every_alias (U : Unicode) (ord : RangeOrder) (s : Session)
    (m : MessageCreate) (args : List String) (hne : args ≠ [])
    (hmiss : roleMapping.lookup (ToLower U (Join args " ")) = none) :
    roleMapping.map (fun kv => Title U kv.1) =
      ["Frontend", "Backend", "Fullstack", "Mobile", "Student"] ∧
    (∃ text, handleIamCommand U ord s m args = [.ChannelMessageSend m.ChannelID text] ∧
      HasPrefix text "❌" = true ∧
      ∀ name ∈ ["Frontend", "Backend", "Fullstack", "Mobile", "Student"],
        Contains text name = true) ∧
    (∃ text, handleIamNotCommand U ord s m args = [.ChannelMessageSend m.ChannelID text] ∧
      HasPrefix text "❌" = true ∧
      ∀ name ∈ ["Frontend", "Backend", "Fullstack", "Mobile", "Student"],
        Contains text name = true) := by
  have hlen : ¬ args.length = 0 := by
    intro h; exact hne (List.length_eq_zero.mp h)
  have hpre : HasPrefix ("❌ Role `" ++ Join args " " ++ "` not found. Available roles: " ++
      Join (ord.entries.map (fun kv => Title U kv.1)) ", ") "❌" = true :=
    HasPrefix_append_of _ _ _ (HasPrefix_append_of _ _ _
      (HasPrefix_append_of _ _ _ (by decide)))
  have hall : ∀ name ∈ ["Frontend", "Backend", "Fullstack", "Mobile", "Student"],
      Contains ("❌ Role `" ++ Join args " " ++ "` not found. Available roles: " ++
        Join (ord.entries.map (fun kv => Title U kv.1)) ", ") name = true := by
    intro name hname
    exact Contains_append_right _ _ _
      (Contains_Join_of_mem ", " name _ (mem_titles_of_range U ord name hname))
  refine ⟨titles_of_roleMapping U, ⟨_, ?_, hpre, hall⟩, ⟨_, ?_, hpre, hall⟩⟩
  · simp only [handleIamCommand, hlen, hmiss, if_false]
  · simp only [handleIamNotCommand, hlen, hmiss, if_false]

/-- Witness for C4: `.iam unknownrole`. -/
theorem unknown_alias_lists_every_alias_witness :
    ["unknownrole"] ≠ [] ∧
    roleMapping.lookup (ToLower asciiTables (Join ["unknownrole"] " ")) = none ∧
    ∃ text, handleIamCommand asciiTables sourceOrder session0 (msg0 ".iam unknownrole")
        ["unknownrole"] = [.ChannelMessageSend "roles" text] ∧
      HasPrefix text "❌" = true ∧
      ∀ name ∈ ["Frontend", "Backend", "Fullstack", "Mobile", "Student"],
        Contains text name = true :=
  ⟨by decide, by decide,
    (unknown_alias_lists_every_alias asciiTables sourceOrder session0
      (msg0 ".iam unknownrole") ["unknownrole"] (by decide) (by decide)).2.1⟩

/-- C9, the code at a bare `.iamnot`: with no arguments `handleIamNotCommand`
does not go through the lookup; it sends a fixed usage line that names
Frontend, Backend, Fullstack and Mobile and does not contain "Student", while
the usage line of `handleIamCommand` names all five.  Neither makes any other
call.  The message `.iamnot` reaches that usage line through `messageCreate`. -/
theorem bare_iamnot_usage_omits_student (U : Unicode) (ord : RangeOrder) (s : Session)
    (m : MessageCreate) :
    roleMapping.lookup (ToLower U (Join [] " ")) = none ∧
    handleIamNotCommand U ord s m [] =
      [.ChannelMessageSend m.ChannelID
        "Usage: `.iamnot <role>` - Available roles: Frontend, Backend, Fullstack, Mobile"] ∧
    Contains "Usage: `.iamnot <role>` - Available roles: Frontend, Backend, Fullstack, Mobile"
      "Student" = false ∧
    handleIamCommand U ord s m [] =
      [.ChannelMessageSend m.ChannelID
        "Usage: `.iam <role>` - Available roles: Frontend, Backend, Fullstack, Mobile, Student"] ∧
    (∀ name ∈ ["Frontend", "Backend", "Fullstack", "Mobile", "Student"],
      Contains
        "Usage: `.iam <role>` - Available roles: Frontend, Backend, Fullstack, Mobile, Student"
        name = true) ∧
    messageCreate asciiTables cfg0 sourceOrder session0 (msg0 ".iamnot") =
      [.ChannelMessageSend "roles"
        "Usage: `.iamnot <role>` - Available roles: Frontend, Backend, Fullstack, Mobile"] := by
  have hkey : ToLower U (Join [] " ") = "" := rfl
  refine ⟨by rw [hkey]; decide, by simp [handleIamNotCommand], by decide,
    by simp [handleIamCommand], by decide, by decide⟩

theorem assignRole_ne_nil (U : Unicode) (s : Session) (m : MessageCreate) (N : String) :
    assignRole U s m N ≠ [] := by
  simp [assignRole]

theorem removeRole_ne_nil (U : Unicode) (s : Session) (m : MessageCreate) (N : String) :
    removeRole U s m N ≠ [] := by
  simp [removeRole]

theorem handleIamCommand_ne_nil (U : Unicode) (ord : RangeOrder) (s : Session)
    (m : MessageCreate) (args : List String) : handleIamCommand U ord s m args ≠ [] := by
  unfold handleIamCommand
  split
  · simp
  · simp only []
    split
    · simp
    · exact assignRole_ne_nil U s m _

theorem handleIamNotCommand_ne_nil (U : Unicode) (ord : RangeOrder) (s : Session)
    (m : MessageCreate) (args : List String) : handleIamNotCommand U ord s m args ≠ [] := by
  unfold handleIamNotCommand
  split
  · simp
  · simp only []
    split
    · simp
    · exact removeRole_ne_nil U s m _

theorem handleHelpCommand_ne_nil (U : Unicode) (ord : RangeOrder) (m : MessageCreate) :
    handleHelpCommand U ord m ≠ [] := by
  simp [handleHelpCommand]

/-- Past its three guards, `messageCreate` is the switch on the command name. -/
theorem messageCreate_of_fields (U : Unicode) (cfg : Config) (ord : RangeOrder) (s : Session)
    (m : MessageCreate) (part0 : String) (args : List String)
    (hauth : m.AuthorID ≠ cfg.botID) (hch : m.ChannelID = cfg.setRoleChannelID)
    (hdot : HasPrefix m.Content "." = true) (hf : Fields m.Content = part0 :: args) :
    messageCreate U cfg ord s m =
      if ToLower U (String.mk (part0.data.drop 1)) = "iam" then handleIamCommand U ord s m args
      else if ToLower U (String.mk (part0.data.drop 1)) = "iamnot" then
        handleIamNotCommand U ord s m args
      else if ToLower U (String.mk (part0.data.drop 1)) = "help" then handleHelpCommand U ord m
      else [] := by
  simp only [messageCreate, if_neg hauth, hch, ne_eq, not_true_eq_false, if_false, hdot,
    Bool.not_true, Bool.false_eq_true, hf]

/-- C3. Dispatch rule.  A message whose author is not the bot, whose channel is
the configured command channel and whose content begins with "." has a first
white-space-delimited field `part0`, which begins with "."; with `command` the
lowercased `part0` without its first rune, `messageCreate` is
`handleIamCommand` on the remaining fields if `command` is "iam",
`handleIamNotCommand` on the remaining fields if it is "iamnot",
`handleHelpCommand` if it is "help", and performs no effect for any other
`command`.  A message from the bot, in another channel or without the "."
prefix causes no effect.  Hence `messageCreate` performs an effect if and only
if all four conditions hold. -/
theorem messageCreate_dispatch (U : Unicode) (cfg : Config) (ord : RangeOrder) (s : Session)
    (m : MessageCreate) :
    (m.AuthorID ≠ cfg.botID → m.ChannelID = cfg.setRoleChannelID →
      HasPrefix m.Content "." = true →
      ∃ part0 args, Fields m.Content = part0 :: args ∧ HasPrefix part0 "." = true ∧
        (ToLower U (String.mk (part0.data.drop 1)) = "iam" →
          messageCreate U cfg ord s m = handleIamCommand U ord s m args) ∧
        (ToLower U (String.mk (part0.data.drop 1)) = "iamnot" →
          messageCreate U cfg ord s m = handleIamNotCommand U ord s m args) ∧
        (ToLower U (String.mk (part0.data.drop 1)) = "help" →
          messageCreate U cfg ord s m = handleHelpCommand U ord m) ∧
        (ToLower U (String.mk (part0.data.drop 1)) ∉ ["iam", "iamnot", "help"] →
          messageCreate U cfg ord s m = [])) ∧
    ((m.AuthorID = cfg.botID ∨ m.ChannelID ≠ cfg.setRoleChannelID ∨
        HasPrefix m.Content "." = false) →
      messageCreate U cfg ord s m = []) ∧
    (messageCreate U cfg ord s m ≠ [] ↔
      (m.AuthorID ≠ cfg.botID ∧ m.ChannelID = cfg.setRoleChannelID ∧
        HasPrefix m.Content "." = true ∧
        ∃ part0 args, Fields m.Content = part0 :: args ∧
          ToLower U (String.mk (part0.data.drop 1)) ∈ ["iam", "iamnot", "help"])) := by
  have hskip : (m.AuthorID = cfg.botID ∨ m.ChannelID ≠ cfg.setRoleChannelID ∨
      HasPrefix m.Content "." = false) → messageCreate U cfg ord s m = [] := by
    intro h
    rcases h with h | h | h
    · simp [messageCreate, h]
    · simp [messageCreate, h]
    · simp [messageCreate, h]
  have hcases : ∀ part0 args, m.AuthorID ≠ cfg.botID → m.ChannelID = cfg.setRoleChannelID →
      HasPrefix m.Content "." = true → Fields m.Content = part0 :: args →
      (ToLower U (String.mk (part0.data.drop 1)) = "iam" →
          messageCreate U cfg ord s m = handleIamCommand U ord s m args) ∧
        (ToLower U (String.mk (part0.data.drop 1)) = "iamnot" →
          messageCreate U cfg ord s m = handleIamNotCommand U ord s m args) ∧
        (ToLower U (String.mk (part0.data.drop 1)) = "help" →
          messageCreate U cfg ord s m = handleHelpCommand U ord m) ∧
        (ToLower U (String.mk (part0.data.drop 1)) ∉ ["iam", "iamnot", "help"] →
          messageCreate U cfg ord s m = []) := by
    intro part0 args hauth hch hdot hf
    rw [messageCreate_of_fields U cfg ord s m part0 args hauth hch hdot hf]
    refine ⟨?_, ?_, ?_, ?_⟩
    · intro h; rw [if_pos h]
    · intro h
      have h1 : ¬ ToLower U (String.mk (part0.data.drop 1)) = "iam" := by
        rw [h]; decide
      rw [if_neg h1, if_pos h]
    · intro h
      have h1 : ¬ ToLower U (String.mk (part0.data.drop 1)) = "iam" := by
        rw [h]; decide
      have h2 : ¬ ToLower U (String.mk (part0.data.drop 1)) = "iamnot" := by
        rw [h]; decide
      rw [if_neg h1, if_neg h2, if_pos h]
    · intro h
      simp only [List.mem_cons, List.mem_singleton, List.not_mem_nil, or_false, not_or] at h
      rw [if_neg h.1, if_neg h.2.1, if_neg h.2.2]
  refine ⟨?_, hskip, ?_⟩
  · intro hauth hch hdot
    obtain ⟨part0, args, hf, hp⟩ := Fields_of_dot m.Content hdot
    exact ⟨part0, args, hf, hp, hcases part0 args hauth hch hdot hf⟩
  · constructor
    · intro hne
      by_cases hauth : m.AuthorID = cfg.botID
      · exact absurd (hskip (Or.inl hauth)) hne
      by_cases hch : m.ChannelID = cfg.setRoleChannelID
      swap
      · exact absurd (hskip (Or.inr (Or.inl hch))) hne
      by_cases hdot : HasPrefix m.Content "." = true
      swap
      · exact absurd (hskip (Or.inr (Or.inr (by simpa using hdot)))) hne
      obtain ⟨part0, args, hf, _⟩ := Fields_of_dot m.Content hdot
      refine ⟨hauth, hch, hdot, part0, args, hf, ?_⟩
      by_contra hcmd
      exact hne ((hcases part0 args hauth hch hdot hf).2.2.2 hcmd)
    · rintro ⟨hauth, hch, hdot, part0, args, hf, hcmd⟩
      have hc := hcases part0 args hauth hch hdot hf
      simp only [List.mem_cons, List.mem_singleton, List.not_mem_nil, or_false] at hcmd
      rcases hcmd with h | h | h
      · rw [hc.1 h]; exact handleIamCommand_ne_nil U ord s m args
      · rw [hc.2.1 h]; exact handleIamNotCommand_ne_nil U ord s m args
      · rw [hc.2.2.1 h]; exact handleHelpCommand_ne_nil U ord m

theorem Fields_command_word (tok ws1 word ws2 : String)
    (htok : ∀ c ∈ tok.data, IsSpace c = false) (htokne : tok ≠ "")
    (hws1 : ∀ c ∈ ws1.data, IsSpace c = true) (hws1ne : ws1 ≠ "")
    (hword : ∀ c ∈ word.data, IsSpace c = false) (hwordne : word ≠ "")
    (hws2 : ∀ c ∈ ws2.data, IsSpace c = true) :
    Fields (tok ++ ws1 ++ word ++ ws2) = [tok, word] := by
  have hne : ∀ t : String, t ≠ "" → t.data ≠ [] := by
    intro t ht hd
    apply ht
    exact String.ext hd
  have he : tok ++ ws1 ++ word ++ ws2 =
      String.mk (tok.data ++ (ws1.data ++ (word.data ++ ws2.data))) := by
    apply String.ext
    simp [String.data_append, List.append_assoc]
  rw [he, Fields_two_words tok.data ws1.data word.data ws2.data htok (hne _ htokne) hws1
    (hne _ hws1ne) hword (hne _ hwordne) hws2]

theorem handleIamCommand_hit (U : Unicode) (ord : RangeOrder) (s : Session) (m : MessageCreate)
    (args : List String) (N : String) (hne : args ≠ [])
    (h : roleMapping.lookup (ToLower U (Join args " ")) = some N) :
    handleIamCommand U ord s m args = assignRole U s m N := by
  have hlen : ¬ args.length = 0 := by
    intro h0; exact hne (List.length_eq_zero.mp h0)
  simp only [handleIamCommand, hlen, h, if_false]

theorem handleIamNotCommand_hit (U : Unicode) (ord : RangeOrder) (s : Session)
    (m : MessageCreate) (args : List String) (N : String) (hne : args ≠ [])
    (h : roleMapping.lookup (ToLower U (Join args " ")) = some N) :
    handleIamNotCommand U ord s m args = removeRole U s m N := by
  have hlen : ¬ args.length = 0 := by
    intro h0; exact hne (List.length_eq_zero.mp h0)
  simp only [handleIamNotCommand, hlen, h, if_false]

theorem roleMapping_keys_lower (U : Unicode) : ∀ kv ∈ roleMapping, ToLower U kv.1 = kv.1 := by
  intro kv hkv
  have h1 : ∀ c ∈ kv.1.data, c.toNat < 128 := by
    revert kv
    decide
  rw [ToLower_ascii U _ h1]
  revert kv
  decide

theorem roleMapping_lookup_of_mem (K N : String) (h : (K, N) ∈ roleMapping) :
    roleMapping.lookup K = some N := by
  simp only [roleMapping, List.mem_cons, Prod.mk.injEq, List.mem_singleton, List.not_mem_nil,
    or_false] at h
  rcases h with ⟨rfl, rfl⟩ | ⟨rfl, rfl⟩ | ⟨rfl, rfl⟩ | ⟨rfl, rfl⟩ | ⟨rfl, rfl⟩ <;> decide

/-- A word whose lowercase form is an alias key is not empty and has no white
space in it: it is a single field of the message. -/
theorem word_of_lower_key (U : Unicode) (K N word : String) (hK : (K, N) ∈ roleMapping)
    (hword : ToLower U word = K) :
    (∀ c ∈ word.data, IsSpace c = false) ∧ word ≠ "" := by
  have hns : ∀ kv ∈ roleMapping, (∀ c ∈ kv.1.data, IsSpace c = false) ∧ kv.1.data ≠ [] := by
    decide
  have hd : word.data.map U.ToLower = K.data := by
    rw [← hword]; rfl
  constructor
  · intro c hc
    cases hsp : IsSpace c with
    | false => rfl
    | true =>
      have h1 : U.ToLower c ∈ word.data.map U.ToLower := List.mem_map_of_mem _ hc
      rw [U.ToLower_space c hsp, hd] at h1
      rw [← (hns (K, N) hK).1 c h1, hsp]
  · intro he
    apply (hns (K, N) hK).2
    rw [← hd, he]
    rfl

theorem messageCreate_iam_word (U : Unicode) (cfg : Config) (ord : RangeOrder) (s : Session)
    (m : MessageCreate) (ws1 word ws2 : String)
    (hauth : m.AuthorID ≠ cfg.botID) (hch : m.ChannelID = cfg.setRoleChannelID)
    (hws1 : ∀ c ∈ ws1.data, IsSpace c = true) (hws1ne : ws1 ≠ "")
    (hword : ∀ c ∈ word.data, IsSpace c = false) (hwordne : word ≠ "")
    (hws2 : ∀ c ∈ ws2.data, IsSpace c = true)
    (hcontent : m.Content = ".iam" ++ ws1 ++ word ++ ws2) :
    messageCreate U cfg ord s m = handleIamCommand U ord s m [word] := by
  have hf : Fields m.Content = [".iam", word] := by
    rw [hcontent]
    exact Fields_command_word ".iam" ws1 word ws2 (by decide) (by decide) hws1 hws1ne hword
      hwordne hws2
  have hdot : HasPrefix m.Content "." = true := by
    rw [hcontent]
    exact HasPrefix_append_of _ _ _ (HasPrefix_append_of _ _ _
      (HasPrefix_append_of _ _ _ (by decide)))
  have hcmd : ToLower U (String.mk (".iam".data.drop 1)) = "iam" := by
    rw [ToLower_ascii U _ (by decide)]
    decide
  rw [messageCreate_of_fields U cfg ord s m ".iam" [word] hauth hch hdot hf, if_pos hcmd]

theorem messageCreate_iamnot_word (U : Unicode) (cfg : Config) (ord : RangeOrder) (s : Session)
    (m : MessageCreate) (ws1 word ws2 : String)
    (hauth : m.AuthorID ≠ cfg.botID) (hch : m.ChannelID = cfg.setRoleChannelID)
    (hws1 : ∀ c ∈ ws1.data, IsSpace c = true) (hws1ne : ws1 ≠ "")
    (hword : ∀ c ∈ word.data, IsSpace c = false) (hwordne : word ≠ "")
    (hws2 : ∀ c ∈ ws2.data, IsSpace c = true)
    (hcontent : m.Content = ".iamnot" ++ ws1 ++ word ++ ws2) :
    messageCreate U cfg ord s m = handleIamNotCommand U ord s m [word] := by
  have hf : Fields m.Content = [".iamnot", word] := by
    rw [hcontent]
    exact Fields_command_word ".iamnot" ws1 word ws2 (by decide) (by decide) hws1 hws1ne hword
      hwordne hws2
  have hdot : HasPrefix m.Content "." = true := by
    rw [hcontent]
    exact HasPrefix_append_of _ _ _ (HasPrefix_append_of _ _ _
      (HasPrefix_append_of _ _ _ (by decide)))
  have hcmd : ToLower U (String.mk (".iamnot".data.drop 1)) = "iamnot" := by
    rw [ToLower_ascii U _ (by decide)]
    decide
  have hcmd1 : ¬ ToLower U (String.mk (".iamnot".data.drop 1)) = "iam" := by
    rw [hcmd]; decide
  rw [messageCreate_of_fields U cfg ord s m ".iamnot" [word] hauth hch hdot hf, if_neg hcmd1,
    if_pos hcmd]

/-- C5 as stated fails for white space before the first token: the message
" .iam frontend" does not begin with ".", so `messageCreate` performs no
effect and `assignRole` is not called for "Frontend Developer". -/
theorem leading_space_not_dispatched_counterexample :
    ("frontend", "Frontend Developer") ∈ roleMapping ∧
    ToLower asciiTables "frontend" = "frontend" ∧
    IsSpace ' ' = true ∧
    messageCreate asciiTables cfg0 sourceOrder session0 (msg0 " .iam frontend") = [] ∧
    messageCreate asciiTables cfg0 sourceOrder session0 (msg0 " .iam frontend") ≠
      assignRole asciiTables session0 (msg0 " .iam frontend") "Frontend Developer" := by
  decide

/-- C5, amended. Alias lookup is case-insensitive and insensitive to the white
space after the command word.  Every key of `roleMapping` is its own lowercase
form.  For an alias key `K` with display name `N`, a word whose lowercase form
is `K`, a non-empty run `ws1` of white space and a run `ws2` of white space, a
message from another user in the command channel with content
".iam" ++ ws1 ++ word ++ ws2 (no white space before ".iam") makes
`messageCreate` run `assignRole` with `N`, and ".iamnot" ++ ws1 ++ word ++ ws2
makes it run `removeRole` with `N`; the handlers resolve any non-empty argument
list by the lowercased, single-space-joined arguments alone.  In particular
"Frontend", "frontend" and "FRONTEND" have the lowercase form "frontend", the
key of "Frontend Developer". -/
theorem alias_lookup_case_and_space_insensitive (U : Unicode) (cfg : Config)
    (ord : RangeOrder) (s : Session) (m : MessageCreate) (K N word ws1 ws2 : String)
    (hK : (K, N) ∈ roleMapping) (hword : ToLower U word = K)
    (hws1 : ∀ c ∈ ws1.data, IsSpace c = true) (hws1ne : ws1 ≠ "")
    (hws2 : ∀ c ∈ ws2.data, IsSpace c = true)
    (hauth : m.AuthorID ≠ cfg.botID) (hch : m.ChannelID = cfg.setRoleChannelID) :
    (∀ kv ∈ roleMapping, ToLower U kv.1 = kv.1) ∧
    (m.Content = ".iam" ++ ws1 ++ word ++ ws2 →
      messageCreate U cfg ord s m = assignRole U s m N) ∧
    (m.Content = ".iamnot" ++ ws1 ++ word ++ ws2 →
      messageCreate U cfg ord s m = removeRole U s m N) ∧
    (∀ args : List String, args ≠ [] → ToLower U (Join args " ") = K →
      handleIamCommand U ord s m args = assignRole U s m N ∧
      handleIamNotCommand U ord s m args = removeRole U s m N) ∧
    (ToLower U "Frontend" = "frontend" ∧ ToLower U "frontend" = "frontend" ∧
      ToLower U "FRONTEND" = "frontend" ∧
      roleMapping.lookup "frontend" = some "Frontend Developer") := by
  have hlook : roleMapping.lookup K = some N := roleMapping_lookup_of_mem K N hK
  obtain ⟨hns, hne⟩ := word_of_lower_key U K N word hK hword
  have hargs : roleMapping.lookup (ToLower U (Join [word] " ")) = some N := by
    show roleMapping.lookup (ToLower U word) = some N
    rw [hword, hlook]
  refine ⟨roleMapping_keys_lower U, ?_, ?_, ?_, ?_⟩
  · intro hcontent
    rw [messageCreate_iam_word U cfg ord s m ws1 word ws2 hauth hch hws1 hws1ne hns hne hws2
      hcontent]
    exact handleIamCommand_hit U ord s m [word] N (List.cons_ne_nil _ _) hargs
  · intro hcontent
    rw [messageCreate_iamnot_word U cfg ord s m ws1 word ws2 hauth hch hws1 hws1ne hns hne hws2
      hcontent]
    exact handleIamNotCommand_hit U ord s m [word] N (List.cons_ne_nil _ _) hargs
  · intro args hargsne hkey
    have h : roleMapping.lookup (ToLower U (Join args " ")) = some N := by
      rw [hkey, hlook]
    exact ⟨handleIamCommand_hit U ord s m args N hargsne h,
      handleIamNotCommand_hit U ord s m args N hargsne h⟩
  · refine ⟨?_, ?_, ?_, by decide⟩
    · rw [ToLower_ascii U _ (by decide)]; decide
    · rw [ToLower_ascii U _ (by decide)]; decide
    · rw [ToLower_ascii U _ (by decide)]; decide

/-- Witness for C5: `.iam`, a tab and two spaces, `FrontEnd`, a trailing space. -/
theorem alias_lookup_case_and_space_insensitive_witness :
    ("frontend", "Frontend Developer") ∈ roleMapping ∧
    ToLower asciiTables "FrontEnd" = "frontend" ∧
    (∀ c ∈ "\t  ".data, IsSpace c = true) ∧ "\t  " ≠ "" ∧
    (∀ c ∈ " ".data, IsSpace c = true) ∧
    (msg0 ".iam\t  FrontEnd ").AuthorID ≠ cfg0.botID ∧
    (msg0 ".iam\t  FrontEnd ").ChannelID = cfg0.setRoleChannelID ∧
    messageCreate asciiTables cfg0 sourceOrder session0 (msg0 ".iam\t  FrontEnd ") =
      assignRole asciiTables session0 (msg0 ".iam\t  FrontEnd ") "Frontend Developer" :=
  ⟨by decide, by decide, by decide, by decide, by decide, by decide, rfl,
    (alias_lookup_case_and_space_insensitive asciiTables cfg0 sourceOrder session0
      (msg0 ".iam\t  FrontEnd ") "frontend" "Frontend Developer" "FrontEnd" "\t  " " "
      (by decide) (by decide) (by decide) (by decide) (by decide) (by decide) rfl).2.1
      (by decide)⟩

/-- C1. Idempotence of assignment.  Let `K` be an alias key with display name
`N`.  In the first session the guild fetch returns a guild whose first role
named `N` (case-insensitively) is `R`, the member fetch returns a member
without `R.ID`, and the add call for `R.ID` succeeds; in the next session the
guild fetch returns the same guild and the member fetch returns a member with
`R.ID`.  Then the first `.iam K` performs exactly the guild fetch, the member
fetch, one `GuildMemberRoleAdd` call for `(m.GuildID, m.Author.ID, R.ID)` and
the response "✅ Role `N` has been assigned to you!"; the second performs the
two fetches and one response, which contains "✅" and "already have", and no
add call.  A message `.iam K` from another user in the command channel is
handled by `messageCreate` in exactly this way. -/
theorem iam_twice_assigns_once (U : Unicode) (ord1 ord2 : RangeOrder) (s1 s2 : Session)
    (m : MessageCreate) (K N : String) (guild : Guild) (R : Role) (member1 member2 : Member)
    (hK : (K, N) ∈ roleMapping)
    (hg1 : s1.Guild m.GuildID = .ok guild)
    (hR : guild.Roles.find? (fun role => EqualFold U role.Name N) = some R)
    (hm1 : s1.GuildMember m.GuildID m.AuthorID = .ok member1)
    (hnot : R.ID ∉ member1.Roles)
    (hadd : s1.GuildMemberRoleAdd m.GuildID m.AuthorID R.ID = none)
    (hg2 : s2.Guild m.GuildID = .ok guild)
    (hm2 : s2.GuildMember m.GuildID m.AuthorID = .ok member2)
    (hin : R.ID ∈ member2.Roles) :
    handleIamCommand U ord1 s1 m [K] =
      [.Guild m.GuildID, .GuildMember m.GuildID m.AuthorID,
       .GuildMemberRoleAdd m.GuildID m.AuthorID R.ID,
       .ChannelMessageSend m.ChannelID ("✅ Role `" ++ N ++ "` has been assigned to you!")] ∧
    (∃ text, handleIamCommand U ord2 s2 m [K] =
        [.Guild m.GuildID, .GuildMember m.GuildID m.AuthorID,
         .ChannelMessageSend m.ChannelID text] ∧
      Contains text "✅" = true ∧ Contains text "already have" = true) ∧
    (∀ cfg : Config, m.AuthorID ≠ cfg.botID → m.ChannelID = cfg.setRoleChannelID →
      m.Content = ".iam " ++ K →
      messageCreate U cfg ord1 s1 m = handleIamCommand U ord1 s1 m [K] ∧
      messageCreate U cfg ord2 s2 m = handleIamCommand U ord2 s2 m [K]) := by
  have hKK : ToLower U K = K := roleMapping_keys_lower U (K, N) hK
  have hlook : roleMapping.lookup (ToLower U (Join [K] " ")) = some N := by
    show roleMapping.lookup (ToLower U K) = some N
    rw [hKK]
    exact roleMapping_lookup_of_mem K N hK
  have hany1 : member1.Roles.any (fun roleID => roleID == R.ID) = false := by
    rw [Bool.eq_false_iff, Ne, any_beq_iff]; exact hnot
  have hany2 : member2.Roles.any (fun roleID => roleID == R.ID) = true :=
    (any_beq_iff _ _).2 hin
  refine ⟨?_, ⟨"✅ You already have the role `" ++ N ++ "`!", ?_, ?_, ?_⟩, ?_⟩
  · rw [handleIamCommand_hit U ord1 s1 m [K] N (List.cons_ne_nil _ _) hlook]
    simp [assignRole, hg1, hR, hm1, hany1, hadd]
  · rw [handleIamCommand_hit U ord2 s2 m [K] N (List.cons_ne_nil _ _) hlook]
    simp [assignRole, hg2, hR, hm2, hany2]
  · exact Contains_append_left _ _ _ (Contains_append_left _ _ _ (by decide))
  · exact Contains_append_left _ _ _ (Contains_append_left _ _ _ (by decide))
  · intro cfg hauth hch hcontent
    obtain ⟨hns, hne⟩ := word_of_lower_key U K N K hK hKK
    have hc : m.Content = ".iam" ++ " " ++ K ++ "" := by
      rw [hcontent]
      apply String.ext
      simp [String.data_append]
    exact ⟨messageCreate_iam_word U cfg ord1 s1 m " " K "" hauth hch (by decide) (by decide)
        hns hne (by decide) hc,
      messageCreate_iam_word U cfg ord2 s2 m " " K "" hauth hch (by decide) (by decide)
        hns hne (by decide) hc⟩

/-- Witness for C1: `.iam frontend` twice, in `session0` and then in
`session1`, where the member holds `r1`. -/
theorem iam_twice_assigns_once_witness :
    ("frontend", "Frontend Developer") ∈ roleMapping ∧
    session0.Guild "g1" = .ok guild0 ∧
    guild0.Roles.find? (fun role => EqualFold asciiTables role.Name "Frontend Developer") =
      some ⟨"r1", "Frontend Developer"⟩ ∧
    session0.GuildMember "g1" "u1" = .ok ⟨[]⟩ ∧ "r1" ∉ ([] : List String) ∧
    session0.GuildMemberRoleAdd "g1" "u1" "r1" = none ∧
    session1.Guild "g1" = .ok guild0 ∧
    session1.GuildMember "g1" "u1" = .ok ⟨["r1"]⟩ ∧ "r1" ∈ ["r1"] ∧
    handleIamCommand asciiTables sourceOrder session0 (msg0 ".iam frontend") ["frontend"] =
      [.Guild "g1", .GuildMember "g1" "u1", .GuildMemberRoleAdd "g1" "u1" "r1",
       .ChannelMessageSend "roles" "✅ Role `Frontend Developer` has been assigned to you!"] :=
  ⟨by decide, rfl, by decide, rfl, by decide, rfl, rfl, rfl, by decide,
    (iam_twice_assigns_once asciiTables sourceOrder sourceOrder session0 session1
      (msg0 ".iam frontend") "frontend" "Frontend Developer" guild0
      ⟨"r1", "Frontend Developer"⟩ ⟨[]⟩ ⟨["r1"]⟩ (by decide) rfl (by decide) rfl (by decide)
      rfl rfl rfl (by decide)).1⟩

/-- Witness for C3: `.help` in the command channel is dispatched, a text
without the "." prefix is not. -/
theorem messageCreate_dispatch_witness :
    messageCreate asciiTables cfg0 sourceOrder session0 (msg0 ".help") ≠ [] ∧
    messageCreate asciiTables cfg0 sourceOrder session0 (msg0 "iam frontend") = [] :=
  ⟨(messageCreate_dispatch asciiTables cfg0 sourceOrder session0 (msg0 ".help")).2.2.mpr
      ⟨by decide, rfl, by decide, ".help", [], by decide, by decide⟩,
    (messageCreate_dispatch asciiTables cfg0 sourceOrder session0 (msg0 "iam frontend")).2.1
      (Or.inr (Or.inr (by decide)))⟩

/-- Witness for C10: the answer to the unknown alias `x` begins with "❌". -/
theorem emoji_convention_by_outcome_witness :
    ["x"] ≠ [] ∧ roleMapping.lookup (ToLower asciiTables (Join ["x"] " ")) = none ∧
    ∃ text, sent (handleIamCommand asciiTables sourceOrder session0 (msg0 ".iam x") ["x"]) =
        [("roles", text)] ∧ HasPrefix text "❌" = true :=
  ⟨by decide, by decide,
    ((emoji_convention_by_outcome asciiTables sourceOrder session0 (msg0 ".iam x")
      "Frontend Developer" ["x"]).2.2 (by decide) (by decide)).1⟩

end SelfTaughtDevBot
